import Mathlib

/-!
Verification of the obsidian-mindmap plugin core against its specification.

The definitions below are a shallow embedding of the TypeScript source:
the outline parser (`src/settings.ts` parser module / `src/renderer.ts`
private copies — both are textually identical), the collapse-state store,
and the layout/measurement/view-fitting helpers of `src/renderer.ts`.
JavaScript strings are modelled as Lean `String`/`List Char`; JS numbers
appearing in layout arithmetic are modelled as `ℚ` where fractional
values occur and as `Nat`/`Int` where the source only ever produces
integers.
-/

/-! ## Character and string helpers (models of the JS string operations) -/

/-- Model of the JS `\s` character class, restricted to the characters that
can actually occur here (ASCII whitespace). -/
def isSpaceChar (c : Char) : Bool :=
  c == ' ' || c == '\t' || c == '\n' || c == '\r' || c == '\x0b' || c == '\x0c'

/-- Strip leading `isSpaceChar` characters. -/
def dropLeadingWs (cs : List Char) : List Char := cs.dropWhile isSpaceChar

/-- Model of JS `String.prototype.trim` on a character list. -/
def trimChars (cs : List Char) : List Char :=
  ((cs.dropWhile isSpaceChar).reverse.dropWhile isSpaceChar).reverse

/-- Model of JS `String.prototype.trim`. -/
def jsTrim (s : String) : String := String.mk (trimChars s.data)

/-- Model of JS `text.split('\n')` on a character list.  Always returns at
least one (possibly empty) piece, exactly like the JS function. -/
def splitLinesChar : List Char → List (List Char)
  | [] => [[]]
  | c :: cs =>
    let r := splitLinesChar cs
    if c == '\n' then [] :: r else (c :: r.headD []) :: r.tail

/-- Model of JS `text.split('\n')`. -/
def splitNewlines (s : String) : List String :=
  (splitLinesChar s.data).map String.mk

theorem splitLinesChar_ne_nil (cs : List Char) : splitLinesChar cs ≠ [] := by
  cases cs with
  | nil => simp [splitLinesChar]
  | cons c cs => simp only [splitLinesChar]; split <;> simp

theorem splitNewlines_ne_nil (s : String) : splitNewlines s ≠ [] := by
  simp [splitNewlines, splitLinesChar_ne_nil]

/-- Model of JS `text.replace(/\s+/g, '_')`: every maximal whitespace run
becomes a single underscore.  `inRun` tracks whether the previous character
was inside a whitespace run already replaced. -/
def collapseWsAux (inRun : Bool) : List Char → List Char
  | [] => []
  | c :: cs =>
    if isSpaceChar c then
      if inRun then collapseWsAux true cs else '_' :: collapseWsAux true cs
    else c :: collapseWsAux false cs

def collapseWs (cs : List Char) : List Char := collapseWsAux false cs

/-- Indent width of a line: a leading space counts 1 unit, a leading tab 4,
anything else ends the count (`getIndentWidth` in the source). -/
def getIndentWidth : List Char → Nat
  | [] => 0
  | c :: cs =>
    if c == ' ' then 1 + getIndentWidth cs
    else if c == '\t' then 4 + getIndentWidth cs
    else 0

/-! ## The node data model and the collapse-state store -/

/-- `MindMapNode` from `src/types.ts`: id, display text, ordered children,
collapse flag, optional note. -/
inductive MindMapNode : Type where
  | mk : String → String → List MindMapNode → Bool → Option String → MindMapNode
deriving Inhabited

namespace MindMapNode

def id : MindMapNode → String | mk i _ _ _ _ => i

def text : MindMapNode → String | mk _ t _ _ _ => t

def children : MindMapNode → List MindMapNode | mk _ _ c _ _ => c

def collapsed : MindMapNode → Bool | mk _ _ _ b _ => b

def note : MindMapNode → Option String | mk _ _ _ _ n => n

theorem ext_iff (n : MindMapNode) :
    n = mk n.id n.text n.children n.collapsed n.note := by
  cases n; rfl

/-- Structural induction that descends into the children list. -/
theorem myInduction (P : MindMapNode → Prop)
    (h : ∀ i t cs b nt, (∀ c ∈ cs, P c) → P (mk i t cs b nt)) :
    ∀ n, P n := by
  intro n
  induction n using MindMapNode.rec (motive_2 := fun l => ∀ c ∈ l, P c) with
  | mk i t cs b nt ih => exact h i t cs b nt ih
  | nil => rename_i c hc; exact absurd hc (List.not_mem_nil c)
  | cons head tail ihh iht =>
    rename_i c hc
    rcases List.mem_cons.mp hc with rfl | hc
    · exact ihh
    · exact iht c hc

mutual

/-- Pre-order list of all nodes of a tree. -/
def allNodes : MindMapNode → List MindMapNode
  | mk i t cs b nt => MindMapNode.mk i t cs b nt :: allNodesList cs

def allNodesList : List MindMapNode → List MindMapNode
  | [] => []
  | c :: rest => allNodes c ++ allNodesList rest

end

theorem allNodesList_eq (l : List MindMapNode) :
    allNodesList l = (l.map allNodes).flatten := by
  induction l with
  | nil => rfl
  | cons c rest ih => rw [allNodesList, ih, List.map_cons, List.flatten_cons]

/-- Pre-order sequence of node ids. -/
def nodeIds (t : MindMapNode) : List String := t.allNodes.map MindMapNode.id

/-- Pre-order sequence of collapse flags. -/
def collapsedFlags (t : MindMapNode) : List Bool := t.allNodes.map MindMapNode.collapsed

end MindMapNode

/-- The Collapse-State Store: the module-global `collapsedStateMap`.
Modelled as an association list; the JS `Map.set` is a front insertion,
`Map.get` a first-match lookup. -/
abbrev Store := List (String × Bool)

/-- `collapsedStateMap.get(id) || false`. -/
def storeGetD (s : Store) (k : String) : Bool := (List.lookup k s).getD false

/-- `setCollapsedState(id, collapsed)` from the parser module. -/
def setCollapsedState (id : String) (collapsed : Bool) (s : Store) : Store :=
  (id, collapsed) :: s

theorem storeGetD_set_same (s : Store) (k : String) (b : Bool) :
    storeGetD (setCollapsedState k b s) k = b := by
  simp [storeGetD, setCollapsedState, List.lookup]

/-! ## Outline Parser: mode-detection predicates

The three regex tests of `parseMarkdownList`. -/

/-- `/^\s*#{2,}\s/.test(line)`: optional leading whitespace, at least two
`#`, followed by a whitespace character. -/
def testMultiHeadingLine (line : String) : Bool :=
  let cs := dropLeadingWs line.data
  let hs := cs.takeWhile (· == '#')
  decide (2 ≤ hs.length) &&
    match cs.drop hs.length with
    | c :: _ => isSpaceChar c
    | [] => false

/-- `/^\s*#+\s/.test(line)`: optional leading whitespace, at least one `#`,
followed by a whitespace character. -/
def testHeadingLine (line : String) : Bool :=
  let cs := dropLeadingWs line.data
  let hs := cs.takeWhile (· == '#')
  decide (1 ≤ hs.length) &&
    match cs.drop hs.length with
    | c :: _ => isSpaceChar c
    | [] => false

/-- `/^\s*[-*]\s/.test(line)`: optional leading whitespace, a `-` or `*`
bullet, followed by a whitespace character. -/
def testListItemLine (line : String) : Bool :=
  match dropLeadingWs line.data with
  | c :: d :: _ => (c == '-' || c == '*') && isSpaceChar d
  | _ => false

/-! ## Heading Mode (`parseHeadingsMode`)

The JS builds the tree by mutating nodes held in an explicit stack; here
each stack entry is a frame holding the node's fields, and a child is
appended to its parent's `children` at the moment its frame is popped
(attach-on-pop), which produces the same tree as the JS aliasing. -/

/-- `trimmed.match(/^(#+)\s*(.*)$/)`: the marker count and the trimmed
remaining text, or `none` when the trimmed line has no leading `#`. -/
def headingMatch (trimmed : String) : Option (Nat × String) :=
  let hs := trimmed.data.takeWhile (· == '#')
  if hs.length = 0 then none
  else some (hs.length,
    String.mk (trimChars (dropLeadingWs (trimmed.data.drop hs.length))))

/-- `generateStableId` of heading mode. -/
def genHeadingId (text : String) (level : Nat) (index : Nat) : String :=
  "heading-" ++ toString level ++ "-" ++ toString index ++ "-" ++
    String.mk (collapseWs (text.data.take 20))

/-- A node under construction on the heading-mode stack. -/
structure HFrame where
  id : String
  text : String
  level : Nat
  collapsed : Bool
  note : Option String
  children : List MindMapNode

/-- Finish a frame into a node. -/
def HFrame.toNode (f : HFrame) : MindMapNode :=
  .mk f.id f.text f.children f.collapsed f.note

/-- The pop loop `while (stack.length > 0 && top.level >= level)`, acting on
the frames above the root, with `f` the current stack top; a popped frame's
node is appended to the frame below it, or to the root's children when it
is the lowest frame above the root. -/
def popHFramesAux (level : Nat) (f : HFrame) : List HFrame → HFrame → List HFrame × HFrame
  | [], root =>
    if level ≤ f.level then
      ([], { root with children := root.children ++ [f.toNode] })
    else ([f], root)
  | g :: gs, root =>
    if level ≤ f.level then
      popHFramesAux level { g with children := g.children ++ [f.toNode] } gs root
    else (f :: g :: gs, root)

def popHFrames (level : Nat) (stack : List HFrame) (root : HFrame) :
    List HFrame × HFrame :=
  match stack with
  | [] => ([], root)
  | f :: rest => popHFramesAux level f rest root

/-- Fold every remaining frame into the root at end of input (the JS needs
no explicit step here because children were attached by reference). -/
def collapseHStackAux (f : HFrame) : List HFrame → HFrame → HFrame
  | [], root => { root with children := root.children ++ [f.toNode] }
  | g :: gs, root => collapseHStackAux { g with children := g.children ++ [f.toNode] } gs root

def collapseHStack (stack : List HFrame) (root : HFrame) : HFrame :=
  match stack with
  | [] => root
  | f :: rest => collapseHStackAux f rest root

/-- Heading-mode parser state: the root frame (none before the first
heading), whether the root is still on the JS stack, the frames above the
root (top first), the pending note lines, and the id counter. -/
structure HState where
  rootFrame : Option HFrame
  rootInStack : Bool
  stack : List HFrame
  noteLines : List String
  nodeIndex : Nat

/-- `noteLines.join('\n').trim()`. -/
def joinNote (ls : List String) : String := jsTrim (String.intercalate "\n" ls)

/-- `flushNote()`: writes the pending note lines into the current node (the
most recently created one: the top frame, or the root when no frame is
above it); when there is no current node yet, the pending lines are kept. -/
def flushNote (st : HState) : HState :=
  if st.noteLines.isEmpty then st
  else
    match st.stack with
    | f :: rest =>
      { st with stack := { f with note := some (joinNote st.noteLines) } :: rest,
                noteLines := [] }
    | [] =>
      match st.rootFrame with
      | some rf =>
        { st with rootFrame := some { rf with note := some (joinNote st.noteLines) },
                  noteLines := [] }
      | none => st

/-- Processing one heading line (marker count `level`, text `txt`). -/
def headingStep (store : Store) (st : HState) (level : Nat) (txt : String) : HState :=
  let st := flushNote st
  let nodeId := genHeadingId txt level st.nodeIndex
  let newF : HFrame :=
    ⟨nodeId, txt, level, storeGetD store nodeId, none, []⟩
  let st := { st with nodeIndex := st.nodeIndex + 1 }
  match st.rootFrame with
  | none => { st with rootFrame := some newF, rootInStack := true }
  | some rf =>
    let p := popHFrames level st.stack rf
    let rootInStack' :=
      if p.1.isEmpty && st.rootInStack && decide (level ≤ p.2.level) then false
      else st.rootInStack
    { st with rootFrame := some p.2, rootInStack := rootInStack',
              stack := newF :: p.1 }

/-- Processing one raw line in heading mode. -/
def hLineStep (store : Store) (st : HState) (line : String) : HState :=
  let trimmed := jsTrim line
  match headingMatch trimmed with
  | some lt => headingStep store st lt.1 lt.2
  | none =>
    if trimmed == "" then st
    else { st with noteLines := st.noteLines ++ [trimmed] }

/-- End of input: final `flushNote`, then the finished root (or `null`). -/
def hFinish (st : HState) : Option MindMapNode :=
  let st := flushNote st
  match st.rootFrame with
  | none => none
  | some rf => some (collapseHStack st.stack rf).toNode

/-- `parseHeadingsMode(lines)`. -/
def parseHeadingsMode (lines : List String) (store : Store) : Option MindMapNode :=
  hFinish (lines.foldl (hLineStep store) ⟨none, false, [], [], 0⟩)

/-! ## List Mode (`parseListMode`) -/

/-- Model of JS `trimmed.startsWith('#')`. -/
def startsWithHash (s : String) : Bool :=
  match s.data with
  | c :: _ => c == '#'
  | [] => false

/-- `trimmed.replace(/^#+\s*/, '').trim()`. -/
def stripHashTitle (t : String) : String :=
  match t.data with
  | '#' :: _ => jsTrim (String.mk (dropLeadingWs (t.data.dropWhile (· == '#'))))
  | _ => jsTrim t

/-- `trimmed.replace(/^[-*]\s*/, '').trim()`. -/
def stripBullet (t : String) : String :=
  match t.data with
  | c :: rest =>
    if c == '-' || c == '*' then jsTrim (String.mk (dropLeadingWs rest))
    else jsTrim t
  | [] => jsTrim t

/-- The title-scan loop at the top of `parseListMode`: finds the first
non-blank line; when it starts with `#` the root title is its stripped
text and parsing starts after it, otherwise the defaults stand.  The third
component records whether an explicit `#` title line was found (an
observation of which branch the loop took; the JS keeps no such flag). -/
def listTitleScanAux : List String → Nat → String × Nat × Bool
  | [], _ => ("Root", 0, false)
  | l :: rest, i =>
    let trimmed := jsTrim l
    if trimmed == "" then listTitleScanAux rest (i + 1)
    else if startsWithHash trimmed then (stripHashTitle trimmed, i + 1, true)
    else ("Root", 0, false)

def listTitleScan (lines : List String) : String × Nat × Bool :=
  listTitleScanAux lines 0

/-- `generateStableId` of list mode. -/
def genListId (text : String) (indent : Int) (index : Nat) : String :=
  "list-" ++ toString indent ++ "-" ++ toString index ++ "-" ++
    String.mk (collapseWs (text.data.take 20))

/-- A node under construction on the list-mode stack (list nodes never get
notes).  `indent` is an `Int` because the root is seeded with `-1`. -/
structure LFrame where
  id : String
  text : String
  indent : Int
  collapsed : Bool
  children : List MindMapNode

def LFrame.toNode (f : LFrame) : MindMapNode :=
  .mk f.id f.text f.children f.collapsed none

/-- The pop loop `while (stack.length > 1 && top.indent >= indent)`, with
`f` the current stack top above the root: the root (stack bottom) is never
popped. -/
def popLFramesAux (indent : Int) (f : LFrame) : List LFrame → LFrame → List LFrame × LFrame
  | [], root =>
    if indent ≤ f.indent then
      ([], { root with children := root.children ++ [f.toNode] })
    else ([f], root)
  | g :: gs, root =>
    if indent ≤ f.indent then
      popLFramesAux indent { g with children := g.children ++ [f.toNode] } gs root
    else (f :: g :: gs, root)

def popLFrames (indent : Int) (stack : List LFrame) (root : LFrame) :
    List LFrame × LFrame :=
  match stack with
  | [] => ([], root)
  | f :: rest => popLFramesAux indent f rest root

/-- Fold every remaining frame into the root at end of input. -/
def collapseLStackAux (f : LFrame) : List LFrame → LFrame → LFrame
  | [], root => { root with children := root.children ++ [f.toNode] }
  | g :: gs, root => collapseLStackAux { g with children := g.children ++ [f.toNode] } gs root

def collapseLStack (stack : List LFrame) (root : LFrame) : LFrame :=
  match stack with
  | [] => root
  | f :: rest => collapseLStackAux f rest root

/-- List-mode parser state: root frame, frames above it (top first), and
the id counter. -/
structure LState where
  rootFrame : LFrame
  stack : List LFrame
  nodeIndex : Nat

/-- Processing one raw line of the list-mode body loop. -/
def lLineStep (store : Store) (st : LState) (line : String) : LState :=
  let trimmed := jsTrim line
  if trimmed == "" then st
  else if startsWithHash trimmed then st
  else
    let indent : Int := (getIndentWidth line.data : Nat)
    let nodeText := stripBullet trimmed
    let nodeId := genListId nodeText indent st.nodeIndex
    let newF : LFrame := ⟨nodeId, nodeText, indent, storeGetD store nodeId, []⟩
    let p := popLFrames indent st.stack st.rootFrame
    ⟨p.2, newF :: p.1, st.nodeIndex + 1⟩

/-- The tree built by `parseListMode` before the final root-elision check. -/
def listParseFinal (lines : List String) (store : Store) : LState :=
  (lines.drop (listTitleScan lines).2.1).foldl (lLineStep store)
    ⟨⟨"root", (listTitleScan lines).1, -1, storeGetD store "root", []⟩, [], 0⟩

def listBuiltRoot (lines : List String) (store : Store) : MindMapNode :=
  (collapseLStack (listParseFinal lines store).stack
    (listParseFinal lines store).rootFrame).toNode

/-- `parseListMode(lines)`. -/
def parseListMode (lines : List String) (store : Store) : Option MindMapNode :=
  if (listBuiltRoot lines store).children.length == 1 &&
      (listTitleScan lines).1 == "Root" then
    some ((listBuiltRoot lines store).children.headD (listBuiltRoot lines store))
  else some (listBuiltRoot lines store)

/-! ## `parseMarkdownList`: mode dispatch -/

def parseMarkdownList (text : String) (store : Store) : Option MindMapNode :=
  if (splitNewlines text).length = 0 then none
  else if (splitNewlines text).any testMultiHeadingLine then
    parseHeadingsMode (splitNewlines text) store
  else if (splitNewlines text).any testHeadingLine &&
      !((splitNewlines text).any testListItemLine) then
    parseHeadingsMode (splitNewlines text) store
  else parseListMode (splitNewlines text) store

/-! ## Text measurement (`calculateTextWidth`) -/

/-- `/[一-鿿　-〿＀-￯]/.test(char)`. -/
def isCjkChar (c : Char) : Bool :=
  (0x4e00 ≤ c.toNat && c.toNat ≤ 0x9fff) ||
  (0x3000 ≤ c.toNat && c.toNat ≤ 0x303f) ||
  (0xff00 ≤ c.toNat && c.toNat ≤ 0xffef)

/-- `calculateTextWidth(text, depth)`: font size `max(10, 13 - depth)`; a
CJK/fullwidth character contributes `fontSize`, any other character
`0.55 * fontSize`; 16 units of margin are added. -/
def calculateTextWidth (text : String) (depth : Nat) : ℚ :=
  let fontSize : ℚ := max 10 (13 - (depth : ℚ))
  (text.data.map fun c =>
    if isCjkChar c then fontSize else 0.55 * fontSize).sum + 16

/-! ## Subtree heights -/

mutual

/-- `calculateTreeHeight` (the linear, curved-connector render family):
24 for a childless or collapsed node, otherwise the children's heights
plus 20 between consecutive children. -/
def calculateTreeHeight : MindMapNode → Nat
  | .mk _ _ cs b _ =>
    if cs.length = 0 || b then 24
    else treeHeightSum cs + 20 * (cs.length - 1)

def treeHeightSum : List MindMapNode → Nat
  | [] => 0
  | c :: rest => calculateTreeHeight c + treeHeightSum rest

end

theorem treeHeightSum_eq (l : List MindMapNode) :
    treeHeightSum l = (l.map calculateTreeHeight).sum := by
  induction l with
  | nil => rfl
  | cons c rest ih => rw [treeHeightSum, ih, List.map_cons, List.sum_cons]

mutual

/-- `calculateRadialMindMapTreeHeight` (the orthogonal render family):
28 for a childless or collapsed node, otherwise the maximum of 28 and the
children's heights plus 8 between consecutive children. -/
def calculateRadialMindMapTreeHeight : MindMapNode → Nat
  | .mk _ _ cs b _ =>
    if cs.length = 0 || b then 28
    else max 28 (radialHeightSum cs + 8 * (cs.length - 1))

def radialHeightSum : List MindMapNode → Nat
  | [] => 0
  | c :: rest => calculateRadialMindMapTreeHeight c + radialHeightSum rest

end

theorem radialHeightSum_eq (l : List MindMapNode) :
    radialHeightSum l = (l.map calculateRadialMindMapTreeHeight).sum := by
  induction l with
  | nil => rfl
  | cons c rest ih => rw [radialHeightSum, ih, List.map_cons, List.sum_cons]

/-! ## Drawn primitives of the two active render modes

`renderOutlineView` / `renderRadialMindMap` emit SVG elements; here each
emission is recorded as an abstract primitive, in source order: the
background rect + label of a node, a connector `path`, a collapse
indicator (`createXMindCircle`, with the child count and collapse flag it
is given), and a note icon. -/

inductive RenderPrim where
  | nodeBox : RenderPrim
  | connector : RenderPrim
  | indicator : Nat → Bool → RenderPrim
  | noteIcon : RenderPrim
deriving DecidableEq

def isConnector : RenderPrim → Bool
  | .connector => true
  | _ => false

def isNodeBox : RenderPrim → Bool
  | .nodeBox => true
  | _ => false

def isIndicator : RenderPrim → Bool
  | .indicator _ _ => true
  | _ => false

mutual

/-- Primitives of `renderOutlineViewChildren` (also the shape of
`renderRadialMindMapChildrenRight`/`Left`, which emit the same elements
with mirrored geometry): per child a connector path, the node box, a note
icon when it has a note, an indicator when it has children, then the
recursion when it is expanded. -/
def renderChildPrims : MindMapNode → List RenderPrim
  | .mk _ _ cs b nt =>
    [RenderPrim.connector, RenderPrim.nodeBox] ++
    (if nt.isSome then [RenderPrim.noteIcon] else []) ++
    (if 0 < cs.length then [RenderPrim.indicator cs.length b] else []) ++
    (if !b && 0 < cs.length then renderChildrenPrims cs else [])

def renderChildrenPrims : List MindMapNode → List RenderPrim
  | [] => []
  | c :: rest => renderChildPrims c ++ renderChildrenPrims rest

end

/-- Primitives of `renderOutlineView`: the root box (and note icon), then —
whenever the root has children, its `collapsed` flag notwithstanding — all
children rendered to the right.  The root gets no collapse indicator. -/
def renderOutlineViewPrims (root : MindMapNode) : List RenderPrim :=
  match root with
  | .mk _ _ cs _ nt =>
    [RenderPrim.nodeBox] ++
    (if nt.isSome then [RenderPrim.noteIcon] else []) ++
    (if 0 < cs.length then renderChildrenPrims cs else [])

/-- Primitives of `renderRadialMindMap`: the root box (and note icon), then
— whenever the root has children, its `collapsed` flag notwithstanding —
the first `ceil(n/2)` children to the right and the rest to the left. -/
def renderRadialMindMapPrims (root : MindMapNode) : List RenderPrim :=
  match root with
  | .mk _ _ cs _ nt =>
    let rightCount := (cs.length + 1) / 2
    [RenderPrim.nodeBox] ++
    (if nt.isSome then [RenderPrim.noteIcon] else []) ++
    (if 0 < cs.length then
      (if 0 < (cs.take rightCount).length then renderChildrenPrims (cs.take rightCount) else []) ++
      (if 0 < (cs.drop rightCount).length then renderChildrenPrims (cs.drop rightCount) else [])
     else [])

/-- Replace the root node's own collapse flag. -/
def setRootCollapsed (n : MindMapNode) (b : Bool) : MindMapNode :=
  match n with
  | .mk i t cs _ nt => .mk i t cs b nt

/-! ## Zoom, note-panel width, view fitting -/

/-- The scale computed by `zoom(factor)`:
`Math.max(0.1, Math.min(5, this.scale * factor))`. -/
def zoomNewScale (scale factor : ℚ) : ℚ :=
  max 0.1 (min 5 (scale * factor))

/-- The note-panel-width text input handler of `MindMapSettingTab.display`:
a parsed width inside `[200, 800]` replaces the setting, anything else
leaves it unchanged. -/
def noteWidthOnChange (current width : Int) : Int :=
  if 200 ≤ width ∧ width ≤ 800 then width else current

structure BBox where
  x : ℚ
  y : ℚ
  width : ℚ
  height : ℚ

structure ViewTransform where
  scale : ℚ
  translateX : ℚ
  translateY : ℚ

/-- `centerTree`, used for view fitting in every render mode: shrink-only
scale, a fixed 40-unit left margin, vertical centering.  `w`/`h` are the
svg client sizes, with the `|| 800` / `|| 600` fallbacks of the source. -/
def centerTree (bbox : BBox) (w h : ℚ) : ViewTransform :=
  let svgWidth := if w == 0 then 800 else w
  let svgHeight := if h == 0 then 600 else h
  let scaleX := min 1 ((svgWidth - 80) / bbox.width)
  let scaleY := min 1 ((svgHeight - 60) / bbox.height)
  let scale := min scaleX (min scaleY 1)
  { scale := scale,
    translateX := 40 - bbox.x * scale,
    translateY := (svgHeight - bbox.height * scale) / 2 - bbox.y * scale }

/-! ## Store-reseeding simulation

`reseed s` recomputes every `collapsed` flag of a tree from the store `s`
(leaving ids, texts, notes, structure unchanged).  The parser only ever
reads the store to seed `collapsed` flags, so parsing under a store `s2`
agrees with `reseed s2` of parsing under any other store — the master
lemma behind the determinism and toggle-round-trip claims. -/

mutual

def reseed (s : Store) : MindMapNode → MindMapNode
  | .mk i t cs _ nt => .mk i t (reseedList s cs) (storeGetD s i) nt

def reseedList (s : Store) : List MindMapNode → List MindMapNode
  | [] => []
  | c :: rest => reseed s c :: reseedList s rest

end

theorem reseedList_eq_map (s : Store) (l : List MindMapNode) :
    reseedList s l = l.map (reseed s) := by
  induction l with
  | nil => rfl
  | cons c rest ih => rw [reseedList, ih, List.map_cons]

theorem reseed_mk (s : Store) (i t : String) (cs : List MindMapNode) (b : Bool)
    (nt : Option String) :
    reseed s (.mk i t cs b nt) = .mk i t (cs.map (reseed s)) (storeGetD s i) nt := by
  rw [reseed, reseedList_eq_map]

theorem reseed_id (s : Store) (n : MindMapNode) : (reseed s n).id = n.id := by
  cases n; rw [reseed_mk]; rfl

theorem reseed_collapsed (s : Store) (n : MindMapNode) :
    (reseed s n).collapsed = storeGetD s n.id := by
  cases n; rw [reseed_mk]; rfl

theorem reseed_children (s : Store) (n : MindMapNode) :
    (reseed s n).children = n.children.map (reseed s) := by
  cases n; rw [reseed_mk]; rfl

def reseedHFrame (s : Store) (f : HFrame) : HFrame :=
  { f with collapsed := storeGetD s f.id, children := f.children.map (reseed s) }

theorem reseedHFrame_level (s : Store) (f : HFrame) :
    (reseedHFrame s f).level = f.level := rfl

theorem reseedHFrame_toNode (s : Store) (f : HFrame) :
    (reseedHFrame s f).toNode = reseed s f.toNode := by
  simp [reseedHFrame, HFrame.toNode, reseed_mk]

theorem reseedHFrame_addChild (s : Store) (g f : HFrame) :
    { reseedHFrame s g with
        children := (reseedHFrame s g).children ++ [(reseedHFrame s f).toNode] } =
      reseedHFrame s { g with children := g.children ++ [f.toNode] } := by
  simp [reseedHFrame, reseedHFrame_toNode, HFrame.toNode, reseed_mk]

theorem popHFramesAux_reseed (s : Store) (level : Nat) (rest : List HFrame) :
    ∀ (f root : HFrame),
      popHFramesAux level (reseedHFrame s f) (rest.map (reseedHFrame s))
          (reseedHFrame s root) =
        ((popHFramesAux level f rest root).1.map (reseedHFrame s),
         reseedHFrame s (popHFramesAux level f rest root).2) := by
  induction rest with
  | nil =>
    intro f root
    rw [List.map_nil, popHFramesAux, popHFramesAux, reseedHFrame_level]
    split
    · rw [reseedHFrame_addChild]; simp
    · simp
  | cons g gs ih =>
    intro f root
    rw [List.map_cons, popHFramesAux, popHFramesAux, reseedHFrame_level]
    split
    · rw [reseedHFrame_addChild, ih]
    · simp

theorem popHFrames_reseed (s : Store) (level : Nat) (stack : List HFrame) (root : HFrame) :
    popHFrames level (stack.map (reseedHFrame s)) (reseedHFrame s root) =
      ((popHFrames level stack root).1.map (reseedHFrame s),
       reseedHFrame s (popHFrames level stack root).2) := by
  cases stack with
  | nil => simp [popHFrames]
  | cons f rest =>
    rw [List.map_cons, popHFrames, popHFrames]
    exact popHFramesAux_reseed s level rest f root

theorem collapseHStackAux_reseed (s : Store) (rest : List HFrame) :
    ∀ (f root : HFrame),
      collapseHStackAux (reseedHFrame s f) (rest.map (reseedHFrame s))
          (reseedHFrame s root) =
        reseedHFrame s (collapseHStackAux f rest root) := by
  induction rest with
  | nil =>
    intro f root
    rw [List.map_nil, collapseHStackAux, collapseHStackAux, reseedHFrame_addChild]
  | cons g gs ih =>
    intro f root
    rw [List.map_cons, collapseHStackAux, collapseHStackAux, reseedHFrame_addChild, ih]

theorem collapseHStack_reseed (s : Store) (stack : List HFrame) (root : HFrame) :
    collapseHStack (stack.map (reseedHFrame s)) (reseedHFrame s root) =
      reseedHFrame s (collapseHStack stack root) := by
  cases stack with
  | nil => rfl
  | cons f rest =>
    rw [List.map_cons, collapseHStack, collapseHStack]
    exact collapseHStackAux_reseed s rest f root

theorem reseedHFrame_setNote (s : Store) (f : HFrame) (nt : String) :
    { reseedHFrame s f with note := some nt } =
      reseedHFrame s { f with note := some nt } := by
  simp [reseedHFrame]

def reseedHState (s : Store) (st : HState) : HState :=
  ⟨st.rootFrame.map (reseedHFrame s), st.rootInStack,
   st.stack.map (reseedHFrame s), st.noteLines, st.nodeIndex⟩

theorem flushNote_reseed (s : Store) (st : HState) :
    flushNote (reseedHState s st) = reseedHState s (flushNote st) := by
  unfold flushNote
  cases hnl : st.noteLines.isEmpty with
  | true => simp [reseedHState, hnl]
  | false =>
    cases hst : st.stack with
    | cons f rest => simp [reseedHState, hnl, hst, reseedHFrame_setNote]
    | nil =>
      cases hrf : st.rootFrame <;>
        simp [reseedHState, hnl, hst, hrf, reseedHFrame_setNote]

theorem headingStep_reseed (s1 s2 : Store) (st : HState) (level : Nat) (txt : String) :
    headingStep s2 (reseedHState s2 st) level txt =
      reseedHState s2 (headingStep s1 st level txt) := by
  unfold headingStep
  rw [flushNote_reseed]
  generalize flushNote st = st'
  obtain ⟨rfo, ris, stk, nls, ni⟩ := st'
  cases rfo with
  | none => simp [reseedHState, reseedHFrame]
  | some rf =>
    simp only [reseedHState, Option.map_some']
    simp only [popHFrames_reseed]
    simp [reseedHFrame_level, reseedHFrame]
    cases (popHFrames level stk rf).1 <;> simp

theorem hLineStep_reseed (s1 s2 : Store) (st : HState) (line : String) :
    hLineStep s2 (reseedHState s2 st) line = reseedHState s2 (hLineStep s1 st line) := by
  unfold hLineStep
  cases h : headingMatch (jsTrim line) with
  | some lt => simp only [h]; exact headingStep_reseed s1 s2 st lt.1 lt.2
  | none =>
    simp only [h]
    cases hbl : jsTrim line == "" <;> simp [reseedHState, hbl]

theorem foldl_hLineStep_reseed (s1 s2 : Store) (lines : List String) (st : HState) :
    lines.foldl (hLineStep s2) (reseedHState s2 st) =
      reseedHState s2 (lines.foldl (hLineStep s1) st) := by
  induction lines generalizing st with
  | nil => rfl
  | cons l ls ih => rw [List.foldl_cons, List.foldl_cons, hLineStep_reseed s1 s2, ih]

theorem hFinish_reseed (s2 : Store) (st : HState) :
    hFinish (reseedHState s2 st) = (hFinish st).map (reseed s2) := by
  unfold hFinish
  rw [flushNote_reseed]
  generalize flushNote st = st'
  obtain ⟨rfo, ris, stk, nls, ni⟩ := st'
  cases rfo with
  | none => simp [reseedHState]
  | some rf =>
    simp only [reseedHState, Option.map_some']
    rw [collapseHStack_reseed, reseedHFrame_toNode]

theorem parseHeadingsMode_reseed (lines : List String) (s1 s2 : Store) :
    parseHeadingsMode lines s2 = (parseHeadingsMode lines s1).map (reseed s2) := by
  unfold parseHeadingsMode
  have h0 : (⟨none, false, [], [], 0⟩ : HState) =
      reseedHState s2 ⟨none, false, [], [], 0⟩ := rfl
  conv_lhs => rw [h0]
  rw [foldl_hLineStep_reseed s1 s2, hFinish_reseed]

def reseedLFrame (s : Store) (f : LFrame) : LFrame :=
  { f with collapsed := storeGetD s f.id, children := f.children.map (reseed s) }

theorem reseedLFrame_indent (s : Store) (f : LFrame) :
    (reseedLFrame s f).indent = f.indent := rfl

theorem reseedLFrame_toNode (s : Store) (f : LFrame) :
    (reseedLFrame s f).toNode = reseed s f.toNode := by
  simp [reseedLFrame, LFrame.toNode, reseed_mk]

theorem reseedLFrame_addChild (s : Store) (g f : LFrame) :
    { reseedLFrame s g with
        children := (reseedLFrame s g).children ++ [(reseedLFrame s f).toNode] } =
      reseedLFrame s { g with children := g.children ++ [f.toNode] } := by
  simp [reseedLFrame, reseedLFrame_toNode, LFrame.toNode, reseed_mk]

theorem popLFramesAux_reseed (s : Store) (indent : Int) (rest : List LFrame) :
    ∀ (f root : LFrame),
      popLFramesAux indent (reseedLFrame s f) (rest.map (reseedLFrame s))
          (reseedLFrame s root) =
        ((popLFramesAux indent f rest root).1.map (reseedLFrame s),
         reseedLFrame s (popLFramesAux indent f rest root).2) := by
  induction rest with
  | nil =>
    intro f root
    rw [List.map_nil, popLFramesAux, popLFramesAux, reseedLFrame_indent]
    split
    · rw [reseedLFrame_addChild]; simp
    · simp
  | cons g gs ih =>
    intro f root
    rw [List.map_cons, popLFramesAux, popLFramesAux, reseedLFrame_indent]
    split
    · rw [reseedLFrame_addChild, ih]
    · simp

theorem popLFrames_reseed (s : Store) (indent : Int) (stack : List LFrame) (root : LFrame) :
    popLFrames indent (stack.map (reseedLFrame s)) (reseedLFrame s root) =
      ((popLFrames indent stack root).1.map (reseedLFrame s),
       reseedLFrame s (popLFrames indent stack root).2) := by
  cases stack with
  | nil => simp [popLFrames]
  | cons f rest =>
    rw [List.map_cons, popLFrames, popLFrames]
    exact popLFramesAux_reseed s indent rest f root

theorem collapseLStackAux_reseed (s : Store) (rest : List LFrame) :
    ∀ (f root : LFrame),
      collapseLStackAux (reseedLFrame s f) (rest.map (reseedLFrame s))
          (reseedLFrame s root) =
        reseedLFrame s (collapseLStackAux f rest root) := by
  induction rest with
  | nil =>
    intro f root
    rw [List.map_nil, collapseLStackAux, collapseLStackAux, reseedLFrame_addChild]
  | cons g gs ih =>
    intro f root
    rw [List.map_cons, collapseLStackAux, collapseLStackAux, reseedLFrame_addChild, ih]

theorem collapseLStack_reseed (s : Store) (stack : List LFrame) (root : LFrame) :
    collapseLStack (stack.map (reseedLFrame s)) (reseedLFrame s root) =
      reseedLFrame s (collapseLStack stack root) := by
  cases stack with
  | nil => rfl
  | cons f rest =>
    rw [List.map_cons, collapseLStack, collapseLStack]
    exact collapseLStackAux_reseed s rest f root

def reseedLState (s : Store) (st : LState) : LState :=
  ⟨reseedLFrame s st.rootFrame, st.stack.map (reseedLFrame s), st.nodeIndex⟩

theorem lLineStep_reseed (s1 s2 : Store) (st : LState) (line : String) :
    lLineStep s2 (reseedLState s2 st) line = reseedLState s2 (lLineStep s1 st line) := by
  unfold lLineStep
  cases hbl : jsTrim line == "" with
  | true => simp [hbl]
  | false =>
    simp only [hbl, Bool.false_eq_true, if_false]
    cases hsh : startsWithHash (jsTrim line) with
    | true => simp [hsh]
    | false =>
      simp only [hsh, Bool.false_eq_true, if_false]
      obtain ⟨rf, stk, ni⟩ := st
      simp only [reseedLState]
      simp only [popLFrames_reseed]
      simp [reseedLFrame]

theorem foldl_lLineStep_reseed (s1 s2 : Store) (lines : List String) (st : LState) :
    lines.foldl (lLineStep s2) (reseedLState s2 st) =
      reseedLState s2 (lines.foldl (lLineStep s1) st) := by
  induction lines generalizing st with
  | nil => rfl
  | cons l ls ih => rw [List.foldl_cons, List.foldl_cons, lLineStep_reseed s1 s2, ih]

theorem listParseFinal_reseed (lines : List String) (s1 s2 : Store) :
    listParseFinal lines s2 = reseedLState s2 (listParseFinal lines s1) := by
  unfold listParseFinal
  have h0 : (⟨⟨"root", (listTitleScan lines).1, -1, storeGetD s2 "root", []⟩, [], 0⟩ : LState) =
      reseedLState s2 ⟨⟨"root", (listTitleScan lines).1, -1, storeGetD s1 "root", []⟩, [], 0⟩ := by
    simp [reseedLState, reseedLFrame]
  conv_lhs => rw [h0]
  rw [foldl_lLineStep_reseed s1 s2]

theorem listBuiltRoot_reseed (lines : List String) (s1 s2 : Store) :
    listBuiltRoot lines s2 = reseed s2 (listBuiltRoot lines s1) := by
  unfold listBuiltRoot
  rw [listParseFinal_reseed lines s1 s2]
  simp only [reseedLState]
  rw [collapseLStack_reseed, reseedLFrame_toNode]

theorem headD_map {α β : Type} (f : α → β) (l : List α) (d : α) :
    (l.map f).headD (f d) = f (l.headD d) := by
  cases l <;> simp

theorem parseListMode_reseed (lines : List String) (s1 s2 : Store) :
    parseListMode lines s2 = (parseListMode lines s1).map (reseed s2) := by
  unfold parseListMode
  rw [listBuiltRoot_reseed lines s1 s2]
  have hc : (reseed s2 (listBuiltRoot lines s1)).children.length =
      (listBuiltRoot lines s1).children.length := by
    rw [reseed_children, List.length_map]
  rw [hc]
  split
  · rw [Option.map_some']
    congr 1
    rw [reseed_children, headD_map]
  · rfl

theorem parseMarkdownList_reseed (text : String) (s1 s2 : Store) :
    parseMarkdownList text s2 = (parseMarkdownList text s1).map (reseed s2) := by
  unfold parseMarkdownList
  split
  · rfl
  · split
    · exact parseHeadingsMode_reseed _ s1 s2
    · split
      · exact parseHeadingsMode_reseed _ s1 s2
      · exact parseListMode_reseed _ s1 s2

/-! ## Consequences of the reseeding simulation -/

theorem allNodes_reseed (s : Store) (t : MindMapNode) :
    (reseed s t).allNodes = t.allNodes.map (reseed s) := by
  induction t using MindMapNode.myInduction with
  | _ i tx cs b nt ih =>
    rw [reseed_mk, MindMapNode.allNodes, MindMapNode.allNodes, List.map_cons, ← reseed_mk]
    congr 1
    rw [MindMapNode.allNodesList_eq, MindMapNode.allNodesList_eq,
      List.map_flatten, List.map_map, List.map_map]
    congr 1
    apply List.map_congr_left
    intro c hc
    exact ih c hc

theorem nodeIds_reseed (s : Store) (t : MindMapNode) :
    (reseed s t).nodeIds = t.nodeIds := by
  rw [MindMapNode.nodeIds, MindMapNode.nodeIds, allNodes_reseed, List.map_map]
  apply List.map_congr_left
  intro c _
  exact reseed_id s c

/-! ## Claim theorems -/

/-- C1: the spec says empty or whitespace-only input parses to `null`, and
the dead `lines.length === 0` guard shows that intent, but JS
`''.split('\n')` is `['']`, so the guard never fires: the parser falls
through to List Mode and returns a childless placeholder `Root` node
instead of `null`. -/
theorem c1_empty_input_yields_root_node :
    parseMarkdownList "" [] =
      some (MindMapNode.mk "root" "Root" [] false none) ∧
    parseMarkdownList "   \n\t\n" [] =
      some (MindMapNode.mk "root" "Root" [] false none) ∧
    ∀ store : Store, parseMarkdownList "" store =
      some (MindMapNode.mk "root" "Root" [] (storeGetD store "root") none) :=
  ⟨rfl, rfl, fun _ => rfl⟩

/-- C2: parsing the same text twice with an unchanged Collapse-State Store
yields trees with identical id sequences and identical collapsed flags;
moreover the id sequence does not depend on the store at all (the id
counter is a local of each parse call). -/
theorem c2_parse_idempotent (text : String) (store s1 s2 : Store) :
    ((parseMarkdownList text store).map MindMapNode.nodeIds =
       (parseMarkdownList text store).map MindMapNode.nodeIds ∧
     (parseMarkdownList text store).map MindMapNode.collapsedFlags =
       (parseMarkdownList text store).map MindMapNode.collapsedFlags) ∧
    (parseMarkdownList text s1).map MindMapNode.nodeIds =
      (parseMarkdownList text s2).map MindMapNode.nodeIds := by
  refine ⟨⟨rfl, rfl⟩, ?_⟩
  rw [parseMarkdownList_reseed text s1 s2, Option.map_map]
  cases parseMarkdownList text s1 with
  | none => rfl
  | some t => simp [nodeIds_reseed]

/-- C3: after `setCollapsedState(n.id, b)`, re-parsing the same source
yields a tree containing a node with the same id whose collapsed flag is
`b` — the toggle survives the re-parse because the store persists by id. -/
theorem c3_toggle_survives_reparse (text : String) (store : Store) (b : Bool)
    (t n : MindMapNode) (ht : parseMarkdownList text store = some t)
    (hn : n ∈ t.allNodes) (_hc : n.children ≠ []) :
    ∃ t', parseMarkdownList text (setCollapsedState n.id b store) = some t' ∧
      ∃ m ∈ t'.allNodes, m.id = n.id ∧ m.collapsed = b := by
  refine ⟨reseed (setCollapsedState n.id b store) t, ?_, ?_⟩
  · rw [parseMarkdownList_reseed text store (setCollapsedState n.id b store), ht,
      Option.map_some']
  · refine ⟨reseed (setCollapsedState n.id b store) n, ?_, reseed_id _ n, ?_⟩
    · rw [allNodes_reseed]
      exact List.mem_map_of_mem _ hn
    · rw [reseed_collapsed, storeGetD_set_same]

theorem c3_witness :
    ∃ t', parseMarkdownList "- A\n  - B"
        (setCollapsedState "list-0-0-A" true []) = some t' ∧
      ∃ m ∈ t'.allNodes, m.id = "list-0-0-A" ∧ m.collapsed = true :=
  c3_toggle_survives_reparse "- A\n  - B" [] true
    (MindMapNode.mk "list-0-0-A" "A"
      [MindMapNode.mk "list-2-1-B" "B" [] false none] false none)
    (MindMapNode.mk "list-0-0-A" "A"
      [MindMapNode.mk "list-2-1-B" "B" [] false none] false none)
    rfl (List.mem_cons_self _ _) (by simp [MindMapNode.children])

/-- C4, counterexample: the input `"# Root\n- A"` has an explicit `#` title
line (the title scan finds it), yet the synthetic root is elided — the code
tests `rootTitle === 'Root'`, and the explicit title here is literally
`Root`, so the claim's "kept whenever an explicit title line is present" is
false. -/
theorem c4_counterexample :
    (listTitleScan (splitNewlines "# Root\n- A")).2.2 = true ∧
    parseMarkdownList "# Root\n- A" [] =
      some (MindMapNode.mk "list-0-0-A" "A" [] false none) :=
  ⟨rfl, rfl⟩

/-- C4, amended: the synthetic root is elided iff the built root has exactly
one child and the scanned root title is the literal placeholder `"Root"`
(true when no `#` title line was found, but also when the title line's text
is literally `Root`); when no title line is found the scanned title is
always `"Root"`. -/
theorem listTitleScanAux_not_found :
    ∀ (lines : List String) (i : Nat), (listTitleScanAux lines i).2.2 = false →
      (listTitleScanAux lines i).1 = "Root"
  | [], _, _ => rfl
  | l :: rest, i, h => by
    rw [listTitleScanAux] at h ⊢
    by_cases h1 : (jsTrim l == "") = true
    · rw [if_pos h1] at h ⊢
      exact listTitleScanAux_not_found rest (i + 1) h
    · rw [if_neg h1] at h ⊢
      by_cases h2 : startsWithHash (jsTrim l) = true
      · rw [if_pos h2] at h; simp at h
      · rw [if_neg h2]

theorem c4_amended_root_elision (lines : List String) (store : Store) :
    (parseListMode lines store =
      if (listBuiltRoot lines store).children.length == 1 &&
          (listTitleScan lines).1 == "Root" then
        some ((listBuiltRoot lines store).children.headD (listBuiltRoot lines store))
      else some (listBuiltRoot lines store)) ∧
    ((listTitleScan lines).2.2 = false → (listTitleScan lines).1 = "Root") :=
  ⟨rfl, listTitleScanAux_not_found lines 0⟩

theorem c4_witness :
    (listTitleScan ["- A"]).2.2 = false ∧ (listTitleScan ["- A"]).1 = "Root" :=
  ⟨rfl, (c4_amended_root_elision ["- A"] []).2 rfl⟩

/-- Modelled from the claim's words, for the C5 counterexample: the line
"contains two or more leading `#` markers" (after optional leading
whitespace), with no requirement that a whitespace character follow them —
the source's `/^\s*#{2,}\s/` additionally demands that whitespace. -/
def claimMultiHeadingLine (line : String) : Bool :=
  decide (2 ≤ ((dropLeadingWs line.data).takeWhile (· == '#')).length)

/-- C5, counterexample: `"##x"` has two leading `#` markers, so the claim
demands Heading Mode; but the detection regex requires whitespace after the
markers, so the code takes List Mode — the result equals the List-Mode
output and differs from what Heading Mode would have produced. -/
theorem c5_counterexample :
    claimMultiHeadingLine "##x" = true ∧
    parseMarkdownList "##x\n- a" [] =
      some (MindMapNode.mk "root" "x"
        [MindMapNode.mk "list-0-0-a" "a" [] false none] false none) ∧
    parseHeadingsMode (splitNewlines "##x\n- a") [] =
      some (MindMapNode.mk "heading-2-0-x" "x" [] false (some "- a")) ∧
    (parseMarkdownList "##x\n- a" []).map MindMapNode.id ≠
      (parseHeadingsMode (splitNewlines "##x\n- a") []).map MindMapNode.id := by
  refine ⟨rfl, rfl, rfl, ?_⟩
  intro h
  have : some "root" = some "heading-2-0-x" := h
  simp at this

/-- C5, amended: first-applicable-rule dispatch, with the marker tests as
the source's regexes state them (a heading/bullet marker counts only when
followed by a whitespace character): Heading Mode when some line has ≥ 2
`#` followed by whitespace; else Heading Mode when some line has ≥ 1 `#`
followed by whitespace and no bullet line exists; else List Mode. -/
theorem c5_amended_mode_dispatch (text : String) (store : Store) :
    parseMarkdownList text store =
      if (splitNewlines text).any testMultiHeadingLine then
        parseHeadingsMode (splitNewlines text) store
      else if (splitNewlines text).any testHeadingLine &&
          !((splitNewlines text).any testListItemLine) then
        parseHeadingsMode (splitNewlines text) store
      else parseListMode (splitNewlines text) store := by
  unfold parseMarkdownList
  rw [if_neg (by simp [List.length_eq_zero, splitNewlines_ne_nil])]

theorem radial_height_ge_28 (n : MindMapNode) :
    28 ≤ calculateRadialMindMapTreeHeight n := by
  cases n with
  | mk i t cs b nt =>
    rw [calculateRadialMindMapTreeHeight]
    split
    · exact le_refl 28
    · exact le_max_left _ _

/-- C6: the subtree-height recurrences.  A collapsed or childless node has
height 24 in the linear family and 28 in the orthogonal family; otherwise
the height is the sum of the children's heights plus (count−1)·gap with
gap 20 resp. 8 (the `Math.max(28, …)` in the orthogonal family is
redundant because every subtree height is ≥ 28). -/
theorem c6_subtree_height_recurrence (n : MindMapNode) :
    ((n.collapsed = true ∨ n.children = []) →
      calculateTreeHeight n = 24 ∧ calculateRadialMindMapTreeHeight n = 28) ∧
    (n.collapsed = false → n.children ≠ [] →
      calculateTreeHeight n =
        (n.children.map calculateTreeHeight).sum + (n.children.length - 1) * 20 ∧
      calculateRadialMindMapTreeHeight n =
        (n.children.map calculateRadialMindMapTreeHeight).sum +
          (n.children.length - 1) * 8) := by
  cases n with
  | mk i t cs b nt =>
    have hcol : (MindMapNode.mk i t cs b nt).collapsed = b := rfl
    have hch : (MindMapNode.mk i t cs b nt).children = cs := rfl
    rw [hcol, hch]
    constructor
    · intro h
      have hcond : (decide (cs.length = 0) || b) = true := by
        rcases h with h | h
        · simp [h]
        · simp [h]
      rw [calculateTreeHeight, calculateRadialMindMapTreeHeight, if_pos hcond, if_pos hcond]
      exact ⟨rfl, rfl⟩
    · intro hb hcs
      have hcond : ¬((decide (cs.length = 0) || b) = true) := by
        simp [hb, List.length_eq_zero, hcs]
      rw [calculateTreeHeight, calculateRadialMindMapTreeHeight, if_neg hcond, if_neg hcond]
      rw [treeHeightSum_eq, radialHeightSum_eq]
      refine ⟨by ring, ?_⟩
      have hge : 28 ≤ (cs.map calculateRadialMindMapTreeHeight).sum := by
        cases cs with
        | nil => exact absurd rfl hcs
        | cons c rest =>
          calc 28 ≤ calculateRadialMindMapTreeHeight c := radial_height_ge_28 c
          _ ≤ (List.map calculateRadialMindMapTreeHeight (c :: rest)).sum := by
              rw [List.map_cons, List.sum_cons]; omega
      rw [Nat.max_eq_right (le_trans hge (Nat.le_add_right _ _))]
      ring

theorem c6_witness :
    (calculateTreeHeight (MindMapNode.mk "l" "L" [] false none) = 24 ∧
     calculateRadialMindMapTreeHeight (MindMapNode.mk "l" "L" [] false none) = 28) ∧
    (calculateTreeHeight
        (MindMapNode.mk "p" "P" [MindMapNode.mk "a" "A" [] false none,
          MindMapNode.mk "b" "B" [] false none] false none) =
      ((MindMapNode.mk "p" "P" [MindMapNode.mk "a" "A" [] false none,
          MindMapNode.mk "b" "B" [] false none] false none).children.map
            calculateTreeHeight).sum +
        ((MindMapNode.mk "p" "P" [MindMapNode.mk "a" "A" [] false none,
          MindMapNode.mk "b" "B" [] false none] false none).children.length - 1) * 20 ∧
     calculateRadialMindMapTreeHeight
        (MindMapNode.mk "p" "P" [MindMapNode.mk "a" "A" [] false none,
          MindMapNode.mk "b" "B" [] false none] false none) =
      ((MindMapNode.mk "p" "P" [MindMapNode.mk "a" "A" [] false none,
          MindMapNode.mk "b" "B" [] false none] false none).children.map
            calculateRadialMindMapTreeHeight).sum +
        ((MindMapNode.mk "p" "P" [MindMapNode.mk "a" "A" [] false none,
          MindMapNode.mk "b" "B" [] false none] false none).children.length - 1) * 8) :=
  ⟨(c6_subtree_height_recurrence (MindMapNode.mk "l" "L" [] false none)).1 (Or.inr rfl),
   (c6_subtree_height_recurrence
      (MindMapNode.mk "p" "P" [MindMapNode.mk "a" "A" [] false none,
        MindMapNode.mk "b" "B" [] false none] false none)).2 rfl
     (by simp [MindMapNode.children])⟩

/-- C7, counterexample: under the measurement rule the claim is false:
`measure("中文", 13) = 2·13 + 16 = 42` while
`measure("abcd", 13) = 4·0.55·13 + 16 = 44.6`, so the two-CJK-character
string measures strictly *less* than the four-Latin-character string. -/
theorem c7_counterexample :
    calculateTextWidth "中文" 0 < calculateTextWidth "abcd" 0 := by
  norm_num [calculateTextWidth,
    show isCjkChar '中' = true from by decide, show isCjkChar '文' = true from by decide,
    show isCjkChar 'a' = false from by decide, show isCjkChar 'b' = false from by decide,
    show isCjkChar 'c' = false from by decide, show isCjkChar 'd' = false from by decide]

/-- C7, amended: for *equal* character counts CJK widths dominate:
`measure("中文", 13) = 42 > 30.3 = measure("ab", 13)` (the claim's own
parenthetical says "for equal character counts"; `"abcd"` has four
characters against two). -/
theorem c7_amended_cjk_dominates :
    calculateTextWidth "中文" 0 > calculateTextWidth "ab" 0 ∧
    calculateTextWidth "中文" 0 = 42 ∧
    calculateTextWidth "abcd" 0 = 223 / 5 := by
  refine ⟨?_, ?_, ?_⟩ <;>
    norm_num [calculateTextWidth,
      show isCjkChar '中' = true from by decide, show isCjkChar '文' = true from by decide,
      show isCjkChar 'a' = false from by decide, show isCjkChar 'b' = false from by decide,
      show isCjkChar 'c' = false from by decide, show isCjkChar 'd' = false from by decide]

/-- C8, counterexample: a root with `collapsed = true` and one child.  The
claim promises zero connectors, one drawn node and an indicator with the
child count; the outline renderer ignores the root's flag and draws the
child anyway: one connector, two node boxes, and no indicator at all
(the root never gets one, the leaf child gets none either).  The radial
renderer behaves the same. -/
theorem c8_counterexample :
    ((renderOutlineViewPrims
        (MindMapNode.mk "r" "R" [MindMapNode.mk "c" "C" [] false none] true none)).filter
          isConnector).length = 1 ∧
    ((renderOutlineViewPrims
        (MindMapNode.mk "r" "R" [MindMapNode.mk "c" "C" [] false none] true none)).filter
          isNodeBox).length = 2 ∧
    ((renderOutlineViewPrims
        (MindMapNode.mk "r" "R" [MindMapNode.mk "c" "C" [] false none] true none)).filter
          isIndicator).length = 0 ∧
    ((renderRadialMindMapPrims
        (MindMapNode.mk "r" "R" [MindMapNode.mk "c" "C" [] false none] true none)).filter
          isConnector).length = 1 :=
  ⟨rfl, rfl, rfl, rfl⟩

/-- C8, amended: in both active render modes the root's own `collapsed`
flag has no effect on the emitted primitives — children are rendered
whenever present and the root never draws a collapse indicator; collapsing
the root therefore does not reduce the drawn connectors or nodes. -/
theorem c8_amended_root_collapse_ignored (t : MindMapNode) (b : Bool) :
    renderOutlineViewPrims (setRootCollapsed t b) = renderOutlineViewPrims t ∧
    renderRadialMindMapPrims (setRootCollapsed t b) = renderRadialMindMapPrims t := by
  cases t
  exact ⟨rfl, rfl⟩

/-- C9, counterexample: a note-panel-width input of 900 (outside
`[200, 800]`) is ignored — the setting keeps its previous value 300 — not
clamped to 800 as the claim states; likewise 100 is ignored, not raised
to 200. -/
theorem c9_counterexample :
    noteWidthOnChange 300 900 = 300 ∧ noteWidthOnChange 300 900 ≠ 800 ∧
    noteWidthOnChange 300 100 = 300 := by
  refine ⟨?_, ?_, ?_⟩ <;> norm_num [noteWidthOnChange]

/-- C9, amended: every zoom operation clamps the scale into `[0.1, 5]`
regardless of the requested factor, but an out-of-range note-panel-width
input is *ignored* (the current value is kept), not clamped. -/
theorem c9_amended_clamping (scale factor : ℚ) (cur w : Int) :
    (0.1 ≤ zoomNewScale scale factor ∧ zoomNewScale scale factor ≤ 5) ∧
    (¬(200 ≤ w ∧ w ≤ 800) → noteWidthOnChange cur w = cur) := by
  refine ⟨⟨le_max_left _ _, max_le (by norm_num) (min_le_left _ _)⟩, ?_⟩
  intro h
  exact if_neg h

theorem c9_witness :
    (0.1 ≤ zoomNewScale 1 100 ∧ zoomNewScale 1 100 ≤ 5) ∧
    noteWidthOnChange 300 900 = 300 :=
  ⟨(c9_amended_clamping 1 100 300 900).1,
   (c9_amended_clamping 1 100 300 900).2 (by decide)⟩

/-- C10, counterexample: `centerTree` is the view fitter of *every* render
mode and always left-aligns: for the bounding box (0,0,100,100) in an
800×600 viewport the computed scale is 1 and `translateX = 40`, whereas
horizontal centering (which the claim asserts for radial mode) would give
`(800 − 100·scale)/2 = 350`. -/
theorem c10_counterexample :
    (centerTree ⟨0, 0, 100, 100⟩ 800 600).scale = 1 ∧
    (centerTree ⟨0, 0, 100, 100⟩ 800 600).translateX = 40 ∧
    (centerTree ⟨0, 0, 100, 100⟩ 800 600).translateX ≠
      (800 - 100 * (centerTree ⟨0, 0, 100, 100⟩ 800 600).scale) / 2 := by
  refine ⟨?_, ?_, ?_⟩ <;> norm_num [centerTree]

/-- C10, amended: in every render mode the view-fitting translation puts
the content's left edge at the fixed 40-unit margin and centers the
content vertically (the screen image of the bounding box's vertical middle
is the viewport's vertical middle); there is no horizontally-centering
radial variant. -/
theorem c10_amended_fit_translation (bbox : BBox) (w h : ℚ) (hh : h ≠ 0) :
    (centerTree bbox w h).translateX + bbox.x * (centerTree bbox w h).scale = 40 ∧
    (centerTree bbox w h).translateY + bbox.y * (centerTree bbox w h).scale +
        bbox.height * (centerTree bbox w h).scale / 2 = h / 2 := by
  unfold centerTree
  have h0 : (h == 0) = false := by simp [hh]
  rw [h0]
  simp only [Bool.false_eq_true, if_false]
  constructor <;> ring

theorem c10_witness :
    (centerTree ⟨5, 7, 100, 50⟩ 800 600).translateX +
        5 * (centerTree ⟨5, 7, 100, 50⟩ 800 600).scale = 40 ∧
    (centerTree ⟨5, 7, 100, 50⟩ 800 600).translateY +
        7 * (centerTree ⟨5, 7, 100, 50⟩ 800 600).scale +
        50 * (centerTree ⟨5, 7, 100, 50⟩ 800 600).scale / 2 = 600 / 2 :=
  c10_amended_fit_translation ⟨5, 7, 100, 50⟩ 800 600 (by norm_num)
